import Mathlib

set_option maxRecDepth 4000

/-!
Shallow embedding of the AudioAnalysisTools repository (beat detection,
time-domain features, PCM frame access) with exact rational arithmetic in
place of IEEE floats.  Machine int64 values are modelled as `Int`, C++
truncating division as `Int.tdiv`, and `TArray` as `List`.
-/

/-- `TArray<float>::SetNum` on a float array: existing entries within the new
size are kept, newly added entries are zero-initialized, excess entries are
dropped. -/
def setNumQ (l : List ℚ) (n : ℕ) : List ℚ :=
  l.take n ++ List.replicate (n - l.length) 0

/-- `TArray<TArray64<float>>::SetNum`: retained rows are kept, new rows are
default-constructed (empty) arrays. -/
def setNumRows (l : List (List ℚ)) (n : ℕ) : List (List ℚ) :=
  l.take n ++ List.replicate (n - l.length) []

/-- Checked array read at an `int64` index: yields a value exactly when the
index is inside the array bounds (a C++ out-of-bounds access otherwise). -/
def getIQ (l : List ℚ) (i : ℤ) : Option ℚ :=
  if 0 ≤ i ∧ i < (l.length : ℤ) then some (l.getD i.toNat 0) else none

/-- State of `UBeatDetection` (BeatDetection.cpp): the int64 size fields and
the float arrays, with `energyHistory` the per-sub-band circular buffers. -/
structure BeatState where
  historyPosition : ℤ
  fftSubbandsSize : ℤ
  energyHistorySize : ℤ
  fftSubbands : List ℚ
  fftAverageEnergy : List ℚ
  fftVariance : List ℚ
  fftBeatValues : List ℚ
  energyHistory : List (List ℚ)
deriving DecidableEq, Repr

/-- The member initializers of the `UBeatDetection` constructor: cursor and
both sizes start at 0, all arrays empty. -/
def initialBeatState : BeatState :=
  { historyPosition := 0
    fftSubbandsSize := 0
    energyHistorySize := 0
    fftSubbands := []
    fftAverageEnergy := []
    fftVariance := []
    fftBeatValues := []
    energyHistory := [] }

/-- `UBeatDetection::UpdateEnergyHistorySize`: a non-positive request is
rejected (logged, state unchanged); otherwise the size is stored and every
sub-band history row is `SetNum`-resized to it. -/
def updateEnergyHistorySize (st : BeatState) (n : ℤ) : BeatState :=
  if n ≤ 0 then st
  else
    { st with
      energyHistorySize := n
      energyHistory := st.energyHistory.map (fun row => setNumQ row n.toNat) }

/-- `UBeatDetection::UpdateFFTSubbandsSize`: a non-positive request is
rejected; otherwise the five dependent arrays are `SetNum`-resized to the new
sub-band count and the history rows are resized to the stored history size. -/
def updateFFTSubbandsSize (st : BeatState) (n : ℤ) : BeatState :=
  if n ≤ 0 then st
  else
    updateEnergyHistorySize
      { st with
        fftSubbandsSize := n
        fftSubbands := setNumQ st.fftSubbands n.toNat
        fftAverageEnergy := setNumQ st.fftAverageEnergy n.toNat
        fftVariance := setNumQ st.fftVariance n.toNat
        fftBeatValues := setNumQ st.fftBeatValues n.toNat
        energyHistory := setNumRows st.energyHistory n.toNat }
      st.energyHistorySize

/-- `UBeatDetection::CreateBeatDetection`: stores the requested history size
directly into the fresh object (no validation) and then runs
`UpdateFFTSubbandsSize` on the requested sub-band count. -/
def createBeatDetection (subbands history : ℤ) : BeatState :=
  updateFFTSubbandsSize { initialBeatState with energyHistorySize := history } subbands

/-- `UBeatDetection::UpdateFFT` (also reached via `ProcessMagnitude`): per
sub-band average over the `len tdiv S` bins scaled by `S/len`; the squared
deviations are accumulated onto the stale `FFTVariance` entry and the
trailing `*=` then scales that whole accumulated value by `S/len`; the linear
beat coefficient, the rolling average energy over the history, the history
write at the shared cursor, and the cursor advance modulo the history size. -/
def updateFFT (st : BeatState) (m : List ℚ) : BeatState :=
  let len : ℤ := (m.length : ℤ)
  let s := st.fftSubbandsSize
  let h := st.energyHistorySize
  let bins : ℕ := (Int.tdiv len s).toNat
  let subbands : List ℚ :=
    (List.range s.toNat).map (fun i =>
      (∑ j ∈ Finset.range bins, m.getD (i * bins + j) 0) * ((s : ℚ) / (len : ℚ)))
  let variance : List ℚ :=
    (List.range s.toNat).map (fun i =>
      (st.fftVariance.getD i 0 +
        ∑ j ∈ Finset.range bins,
          (m.getD (i * bins + j) 0 - subbands.getD i 0) ^ 2) * ((s : ℚ) / (len : ℚ)))
  let beatValues : List ℚ :=
    (List.range s.toNat).map (fun i =>
      -(25714 / 10000000 : ℚ) * variance.getD i 0 + 115142857 / 100000000)
  let avgEnergy : List ℚ :=
    (List.range s.toNat).map (fun i =>
      (∑ j ∈ Finset.range h.toNat, (st.energyHistory.getD i []).getD j 0) / (h : ℚ))
  let history : List (List ℚ) :=
    (List.range s.toNat).map (fun i =>
      (st.energyHistory.getD i []).set st.historyPosition.toNat (subbands.getD i 0))
  { st with
    fftSubbands := subbands
    fftVariance := variance
    fftBeatValues := beatValues
    fftAverageEnergy := avgEnergy
    energyHistory := history
    historyPosition := Int.tmod (st.historyPosition + 1) h }

/-- `UBeatDetection::UpdateFFT` iterated on one fixed magnitude spectrum. -/
def iterUpdate (st : BeatState) (m : List ℚ) : ℕ → BeatState
  | 0 => st
  | n + 1 => updateFFT (iterUpdate st m n) m

/-- `UBeatDetection::IsBeat`: a sub-band index at or above the sub-band count
is rejected (returns false); otherwise the three arrays are read at the index
(an out-of-bounds C++ access yields `none` here) and the current sub-band
energy is compared against average energy times the beat coefficient. -/
def isBeat (st : BeatState) (b : ℤ) : Option Bool :=
  if st.fftSubbandsSize ≤ b then some false
  else
    match getIQ st.fftSubbands b, getIQ st.fftAverageEnergy b, getIQ st.fftBeatValues b with
    | some e, some a, some t => some (decide (a * t < e))
    | _, _, _ => none

/-- `UBeatDetection::IsBeatRange`: validates `low` and `high` against
`[0, fftSubbandsSize)` and `low < high`, then counts the sub-bands in the
inclusive range on which `IsBeat` holds and compares against the threshold. -/
def isBeatRange (st : BeatState) (low high threshold : ℤ) : Bool :=
  if ¬(0 ≤ low ∧ low < st.fftSubbandsSize) then false
  else if ¬(0 ≤ high ∧ high < st.fftSubbandsSize) then false
  else if ¬(low < high) then false
  else
    decide (threshold <
      (((List.range (high + 1 - low).toNat).filter
          (fun j : ℕ => decide (isBeat st (low + (j : ℤ)) = some true))).length : ℤ))

/-- `UBeatDetection::IsSnare`: `IsBeatRange` from band 1 to `S tdiv 3` with
threshold `(S tdiv 3 - 1) tdiv 3`. -/
def isSnare (st : BeatState) : Bool :=
  isBeatRange st 1 (Int.tdiv st.fftSubbandsSize 3)
    (Int.tdiv (Int.tdiv st.fftSubbandsSize 3 - 1) 3)

/-- `UBeatDetection::IsHiHat`: `IsBeatRange` from `S tdiv 2` to `S - 1` with
threshold `(S - 1 - S tdiv 2) tdiv 3`. -/
def isHiHat (st : BeatState) : Bool :=
  isBeatRange st (Int.tdiv st.fftSubbandsSize 2) (st.fftSubbandsSize - 1)
    (Int.tdiv (st.fftSubbandsSize - 1 - Int.tdiv st.fftSubbandsSize 2) 3)

/-- Well-formedness of a `BeatState`: the four per-sub-band arrays have
exactly `fftSubbandsSize` entries (and the size field is non-negative). -/
def BeatState.WF (st : BeatState) : Prop :=
  0 ≤ st.fftSubbandsSize ∧
  st.fftSubbands.length = st.fftSubbandsSize.toNat ∧
  st.fftAverageEnergy.length = st.fftSubbandsSize.toNat ∧
  st.fftVariance.length = st.fftSubbandsSize.toNat ∧
  st.fftBeatValues.length = st.fftSubbandsSize.toNat

instance (st : BeatState) : Decidable st.WF := by
  unfold BeatState.WF; infer_instance

/-- `UCoreTimeDomainFeatures::GetRootMeanSquare` without the final square
root: the sum of squared samples divided by the frame length. -/
def meanSquare (frame : List ℚ) : ℚ :=
  (frame.map (fun x => x ^ 2)).sum / (frame.length : ℚ)

/-- `UCoreTimeDomainFeatures::GetRootMeanSquare`: square root of the mean of
squared samples. -/
noncomputable def getRootMeanSquare (frame : List ℚ) : ℝ :=
  Real.sqrt ((meanSquare frame : ℚ) : ℝ)

/-- `UCoreTimeDomainFeatures::GetPeakEnergy`: running maximum of the absolute
sample values, seeded with the sentinel -10000. -/
def getPeakEnergy (frame : List ℚ) : ℚ :=
  frame.foldl (fun peak x => if peak < |x| then |x| else peak) (-10000)

/-- `UCoreTimeDomainFeatures::GetZeroCrossingRate`: the number of consecutive
sample pairs whose positivity (`x > 0`) differs, returned as a float count. -/
def getZeroCrossingRate (frame : List ℚ) : ℚ :=
  (((frame.zip frame.tail).filter
      (fun p => decide (0 < p.2) != decide (0 < p.1))).length : ℚ)

/-- The part of `UImportedSoundWave` that
`UAudioAnalysisToolsLibrary::GetAudioFrameFromSoundWaveByFramesCustom` reads:
the interleaved PCM sample buffer, the frame count, and the channel count. -/
structure SoundWaveData where
  pcmData : List ℚ
  pcmNumOfFrames : ℤ
  numChannels : ℤ
deriving DecidableEq, Repr

/-- `UAudioAnalysisToolsLibrary::GetAudioFrameFromSoundWaveByFramesCustom`:
validates `0 ≤ start < end` and `end ≤ pcmNumOfFrames`, then copies
`end - start` samples starting at interleaved sample offset
`start * numChannels` (failure is `none`, matching a `false` return with the
output array untouched). -/
def getAudioFrameByFramesCustom (w : SoundWaveData) (startFrame endFrame : ℤ) :
    Option (List ℚ) :=
  if ¬(0 ≤ startFrame ∧ startFrame < endFrame) then none
  else if ¬(0 < endFrame ∧ startFrame < endFrame) then none
  else if w.pcmNumOfFrames < endFrame then none
  else
    let retrievedSize : ℤ := endFrame - startFrame
    if retrievedSize ≤ 0 then none
    else if (w.pcmData.length : ℤ) < retrievedSize then none
    else some ((w.pcmData.drop (startFrame * w.numChannels).toNat).take retrievedSize.toNat)

/-- The beat coefficient produced by a sub-band whose variance is zero. -/
def qc2 : ℚ := 115142857 / 100000000

/-- Steady state reached by repeatedly feeding a one-bin-per-sub-band
spectrum `[a, b, c, d]` to a 4-sub-band, depth-2 detector: all history
entries equal the current energies and every variance is zero. -/
def stSteady (p : ℤ) (a b c d : ℚ) : BeatState :=
  { historyPosition := p, fftSubbandsSize := 4, energyHistorySize := 2,
    fftSubbands := [a, b, c, d], fftAverageEnergy := [a, b, c, d],
    fftVariance := [0, 0, 0, 0], fftBeatValues := [qc2, qc2, qc2, qc2],
    energyHistory := [[a, a], [b, b], [c, c], [d, d]] }

/-- State after one update of `createBeatDetection 4 2` with `[a, b, c, d]`. -/
def stWarm1 (a b c d : ℚ) : BeatState :=
  { historyPosition := 1, fftSubbandsSize := 4, energyHistorySize := 2,
    fftSubbands := [a, b, c, d], fftAverageEnergy := [0, 0, 0, 0],
    fftVariance := [0, 0, 0, 0], fftBeatValues := [qc2, qc2, qc2, qc2],
    energyHistory := [[a, 0], [b, 0], [c, 0], [d, 0]] }

/-- State after two updates of `createBeatDetection 4 2` with `[a, b, c, d]`. -/
def stWarm2 (a b c d : ℚ) : BeatState :=
  { historyPosition := 0, fftSubbandsSize := 4, energyHistorySize := 2,
    fftSubbands := [a, b, c, d], fftAverageEnergy := [a/2, b/2, c/2, d/2],
    fftVariance := [0, 0, 0, 0], fftBeatValues := [qc2, qc2, qc2, qc2],
    energyHistory := [[a, a], [b, b], [c, c], [d, d]] }

/-- The length-8 spectrum `[0,16,0,0,0,0,0,0]`: its first sub-band (bins 0
and 1) has average 8 and positive in-band spread. -/
def mSpec8 : List ℚ := [0, 16, 0, 0, 0, 0, 0, 0]

/-- State reached after `n ≥ 3` updates of `createBeatDetection 4 2` with
`mSpec8`, where `v` is the accumulated variance of sub-band 0 after those
updates (it follows the recurrence `v(n+1) = (v(n) + 128) / 2`, so it stays
at 64 or above while converging to 128). -/
def stV (p : ℤ) (v : ℚ) : BeatState :=
  { historyPosition := p, fftSubbandsSize := 4, energyHistorySize := 2,
    fftSubbands := [8, 0, 0, 0], fftAverageEnergy := [8, 0, 0, 0],
    fftVariance := [v, 0, 0, 0],
    fftBeatValues := [-(25714 / 10000000 : ℚ) * v + 115142857 / 100000000, qc2, qc2, qc2],
    energyHistory := [[8, 8], [0, 0], [0, 0], [0, 0]] }

/-- State after one update of `createBeatDetection 4 2` with `mSpec8`. -/
def stV1 : BeatState :=
  { historyPosition := 1, fftSubbandsSize := 4, energyHistorySize := 2,
    fftSubbands := [8, 0, 0, 0], fftAverageEnergy := [0, 0, 0, 0],
    fftVariance := [64, 0, 0, 0],
    fftBeatValues := [-(25714 / 10000000 : ℚ) * 64 + 115142857 / 100000000, qc2, qc2, qc2],
    energyHistory := [[8, 0], [0, 0], [0, 0], [0, 0]] }

/-- State after two updates of `createBeatDetection 4 2` with `mSpec8`. -/
def stV2 : BeatState :=
  { historyPosition := 0, fftSubbandsSize := 4, energyHistorySize := 2,
    fftSubbands := [8, 0, 0, 0], fftAverageEnergy := [4, 0, 0, 0],
    fftVariance := [96, 0, 0, 0],
    fftBeatValues := [-(25714 / 10000000 : ℚ) * 96 + 115142857 / 100000000, qc2, qc2, qc2],
    energyHistory := [[8, 8], [0, 0], [0, 0], [0, 0]] }

/-- A small well-formed detector state used to instantiate theorems with
hypotheses: 2 sub-bands, history depth 1, sub-band 0 currently above its
adaptive threshold and sub-band 1 below it. -/
def stWitness : BeatState :=
  { historyPosition := 0, fftSubbandsSize := 2, energyHistorySize := 1,
    fftSubbands := [5, 0], fftAverageEnergy := [1, 1],
    fftVariance := [0, 0], fftBeatValues := [1, 1],
    energyHistory := [[0], [0]] }

section evaluationLemmas

lemma rangeOne : List.range 1 = [0] := rfl

lemma rangeTwo : List.range 2 = [0, 1] := rfl

lemma rangeFour : List.range 4 = [0, 1, 2, 3] := rfl

lemma toNatOne : Int.toNat 1 = 1 := rfl

lemma toNatTwo : Int.toNat 2 = 2 := rfl

lemma toNatThree : Int.toNat 3 = 3 := rfl

lemma toNatFour : Int.toNat 4 = 4 := rfl

lemma tdivOneOne : Int.tdiv 1 1 = 1 := by decide

lemma tdivTwoOne : Int.tdiv 2 1 = 2 := by decide

lemma tdivFiveTwo : Int.tdiv 5 2 = 2 := by decide

lemma tdivFourFour : Int.tdiv 4 4 = 1 := by decide

lemma tdivEightFour : Int.tdiv 8 4 = 2 := by decide

lemma tmodOneOne : Int.tmod 1 1 = 0 := by decide

lemma tmodOneTwo : Int.tmod 1 2 = 1 := by decide

lemma tmodTwoTwo : Int.tmod 2 2 = 0 := by decide

lemma sum_range_two_q (f : ℕ → ℚ) : ∑ j ∈ Finset.range 2, f j = f 0 + f 1 := by
  rw [show (2 : ℕ) = 1 + 1 from rfl, Finset.sum_range_succ, Finset.sum_range_one]

lemma getD_map_range (f : ℕ → ℚ) (n s : ℕ) (h : s < n) :
    ((List.range n).map f).getD s 0 = f s := by
  rw [List.getD_eq_getElem?_getD]
  simp [List.getElem?_map, List.getElem?_range, h]

lemma setNumQ_length (l : List ℚ) (n : ℕ) : (setNumQ l n).length = n := by
  simp [setNumQ]
  omega

lemma setNumQ_getD (l : List ℚ) (n j : ℕ) (hj : j < n) :
    (setNumQ l n).getD j 0 = l.getD j 0 := by
  rw [setNumQ, List.getD_eq_getElem?_getD, List.getD_eq_getElem?_getD]
  by_cases hjl : j < l.length
  · rw [List.getElem?_append_left (by simp [List.length_take]; omega)]
    rw [List.getElem?_take]
    simp [hj]
  · rw [List.getElem?_append_right (by simp [List.length_take]; omega)]
    have h1 : l[j]? = none := by rw [List.getElem?_eq_none_iff]; omega
    rw [h1, List.getElem?_replicate]
    split <;> rfl

lemma count_filter_range (p : ℤ → Prop) [DecidablePred p] (low : ℤ) (n : ℕ) :
    ((List.range n).filter (fun j : ℕ => decide (p (low + (j : ℤ))))).length
      = ((Finset.Icc low (low + n - 1)).filter p).card := by
  induction n with
  | zero =>
    rw [Finset.Icc_eq_empty (by omega)]
    simp
  | succ n ih =>
    have hIcc : Finset.Icc low (low + (n + 1 : ℕ) - 1)
        = insert (low + n) (Finset.Icc low (low + n - 1)) := by
      ext x
      simp only [Finset.mem_Icc, Finset.mem_insert]
      push_cast
      omega
    rw [List.range_succ, List.filter_append, List.length_append, ih, hIcc,
      Finset.filter_insert]
    by_cases hp : p (low + n)
    · rw [if_pos hp,
        Finset.card_insert_of_not_mem (by simp [Finset.mem_filter, Finset.mem_Icc])]
      simp [hp]
    · rw [if_neg hp]
      simp [hp]

lemma peak_foldl_const (c : ℚ) :
    ∀ l : List ℚ, (∀ x ∈ l, x = c) →
      l.foldl (fun p x => if p < |x| then |x| else p) |c| = |c| := by
  intro l
  induction l with
  | nil => intro _; rfl
  | cons y ys ih =>
    intro h
    have hy : y = c := h y (by simp)
    subst hy
    have hmem : ∀ x ∈ ys, x = y := fun x hx => h x (by simp [hx])
    simpa [List.foldl_cons] using ih hmem

end evaluationLemmas

section concreteStates

lemma create11 : createBeatDetection 1 1 =
    { historyPosition := 0, fftSubbandsSize := 1, energyHistorySize := 1,
      fftSubbands := [0], fftAverageEnergy := [0], fftVariance := [0],
      fftBeatValues := [0], energyHistory := [[0]] } := by decide

lemma create12 : createBeatDetection 1 2 =
    { historyPosition := 0, fftSubbandsSize := 1, energyHistorySize := 2,
      fftSubbands := [0], fftAverageEnergy := [0], fftVariance := [0],
      fftBeatValues := [0], energyHistory := [[0, 0]] } := by decide

lemma create21 : createBeatDetection 2 1 =
    { historyPosition := 0, fftSubbandsSize := 2, energyHistorySize := 1,
      fftSubbands := [0, 0], fftAverageEnergy := [0, 0], fftVariance := [0, 0],
      fftBeatValues := [0, 0], energyHistory := [[0], [0]] } := by decide

lemma create42 : createBeatDetection 4 2 =
    { historyPosition := 0, fftSubbandsSize := 4, energyHistorySize := 2,
      fftSubbands := [0, 0, 0, 0], fftAverageEnergy := [0, 0, 0, 0],
      fftVariance := [0, 0, 0, 0], fftBeatValues := [0, 0, 0, 0],
      energyHistory := [[0, 0], [0, 0], [0, 0], [0, 0]] } := by decide

lemma upd11a : updateFFT
    { historyPosition := 0, fftSubbandsSize := 1, energyHistorySize := 1,
      fftSubbands := [0], fftAverageEnergy := [0], fftVariance := [0],
      fftBeatValues := [0], energyHistory := [[0]] } [0, 2] =
    { historyPosition := 0, fftSubbandsSize := 1, energyHistorySize := 1,
      fftSubbands := [1], fftAverageEnergy := [0], fftVariance := [1],
      fftBeatValues := [-(25714 / 10000000 : ℚ) + 115142857 / 100000000],
      energyHistory := [[1]] } := by
  simp only [updateFFT, List.length_cons, List.length_nil]
  norm_num [rangeOne, toNatOne, toNatTwo, tdivTwoOne, tmodOneOne, sum_range_two_q,
    BeatState.mk.injEq]

lemma upd11b : updateFFT
    { historyPosition := 0, fftSubbandsSize := 1, energyHistorySize := 1,
      fftSubbands := [1], fftAverageEnergy := [0], fftVariance := [1],
      fftBeatValues := [-(25714 / 10000000 : ℚ) + 115142857 / 100000000],
      energyHistory := [[1]] } [0, 2] =
    { historyPosition := 0, fftSubbandsSize := 1, energyHistorySize := 1,
      fftSubbands := [1], fftAverageEnergy := [1], fftVariance := [3 / 2],
      fftBeatValues := [-(25714 / 10000000 : ℚ) * (3 / 2) + 115142857 / 100000000],
      energyHistory := [[1]] } := by
  simp only [updateFFT, List.length_cons, List.length_nil]
  norm_num [rangeOne, toNatOne, toNatTwo, tdivTwoOne, tmodOneOne, sum_range_two_q,
    BeatState.mk.injEq]

lemma upd12 : updateFFT
    { historyPosition := 0, fftSubbandsSize := 1, energyHistorySize := 2,
      fftSubbands := [0], fftAverageEnergy := [0], fftVariance := [0],
      fftBeatValues := [0], energyHistory := [[0, 0]] } [1] =
    { historyPosition := 1, fftSubbandsSize := 1, energyHistorySize := 2,
      fftSubbands := [1], fftAverageEnergy := [0], fftVariance := [0],
      fftBeatValues := [qc2], energyHistory := [[1, 0]] } := by
  simp only [updateFFT, List.length_cons, List.length_nil]
  norm_num [rangeOne, toNatOne, toNatTwo, tdivOneOne, tmodOneTwo, sum_range_two_q,
    BeatState.mk.injEq, qc2]

end concreteStates

section steadyStateLemmas

lemma updW1 (a b c d : ℚ) : updateFFT
    { historyPosition := 0, fftSubbandsSize := 4, energyHistorySize := 2,
      fftSubbands := [0, 0, 0, 0], fftAverageEnergy := [0, 0, 0, 0],
      fftVariance := [0, 0, 0, 0], fftBeatValues := [0, 0, 0, 0],
      energyHistory := [[0, 0], [0, 0], [0, 0], [0, 0]] } [a, b, c, d]
    = stWarm1 a b c d := by
  simp only [updateFFT, stWarm1, List.length_cons, List.length_nil]
  norm_num [rangeFour, toNatOne, toNatTwo, toNatFour, tdivFourFour, tmodOneTwo,
    sum_range_two_q, BeatState.mk.injEq, qc2]

lemma updW2 (a b c d : ℚ) :
    updateFFT (stWarm1 a b c d) [a, b, c, d] = stWarm2 a b c d := by
  simp only [updateFFT, stWarm1, stWarm2, List.length_cons, List.length_nil]
  norm_num [rangeFour, toNatOne, toNatTwo, toNatFour, tdivFourFour, tmodTwoTwo,
    sum_range_two_q, BeatState.mk.injEq, qc2]

lemma updW3 (a b c d : ℚ) :
    updateFFT (stWarm2 a b c d) [a, b, c, d] = stSteady 1 a b c d := by
  simp only [updateFFT, stWarm2, stSteady, List.length_cons, List.length_nil]
  norm_num [rangeFour, toNatOne, toNatTwo, toNatFour, tdivFourFour, tmodOneTwo,
    sum_range_two_q, BeatState.mk.injEq, qc2]

lemma stepS1 (a b c d : ℚ) :
    updateFFT (stSteady 1 a b c d) [a, b, c, d] = stSteady 0 a b c d := by
  simp only [updateFFT, stSteady, List.length_cons, List.length_nil]
  norm_num [rangeFour, toNatOne, toNatTwo, toNatFour, tdivFourFour, tmodTwoTwo,
    sum_range_two_q, BeatState.mk.injEq, qc2]

lemma stepS0 (a b c d : ℚ) :
    updateFFT (stSteady 0 a b c d) [a, b, c, d] = stSteady 1 a b c d := by
  simp only [updateFFT, stSteady, List.length_cons, List.length_nil]
  norm_num [rangeFour, toNatOne, toNatTwo, toNatFour, tdivFourFour, tmodOneTwo,
    sum_range_two_q, BeatState.mk.injEq, qc2]

lemma iterSteady (a b c d : ℚ) (k : ℕ) :
    iterUpdate (createBeatDetection 4 2) [a, b, c, d] (3 + 2 * k) = stSteady 1 a b c d ∧
    iterUpdate (createBeatDetection 4 2) [a, b, c, d] (4 + 2 * k) = stSteady 0 a b c d := by
  induction k with
  | zero =>
    constructor
    · show iterUpdate (createBeatDetection 4 2) [a, b, c, d] (0 + 1 + 1 + 1) = _
      simp only [iterUpdate, create42, updW1, updW2, updW3]
    · show iterUpdate (createBeatDetection 4 2) [a, b, c, d] (0 + 1 + 1 + 1 + 1) = _
      simp only [iterUpdate, create42, updW1, updW2, updW3, stepS1]
  | succ k ih =>
    have e1 : 3 + 2 * (k + 1) = (3 + 2 * k) + 1 + 1 := by omega
    have e2 : 4 + 2 * (k + 1) = (4 + 2 * k) + 1 + 1 := by omega
    constructor
    · rw [e1]
      simp only [iterUpdate, ih.1, stepS1, stepS0]
    · rw [e2]
      simp only [iterUpdate, ih.2, stepS0, stepS1]

lemma isBeat_stSteady (p : ℤ) (a b c d : ℚ)
    (ha : 0 ≤ a) (hb : 0 ≤ b) (hc : 0 ≤ c) (hd : 0 ≤ d)
    (s : ℤ) (h0 : 0 ≤ s) (h4 : s < 4) :
    isBeat (stSteady p a b c d) s = some false := by
  have h15 : (0 : ℚ) ≤ 115142857 / 100000000 - 1 := by norm_num
  interval_cases s <;>
    simp only [isBeat, stSteady, getIQ, qc2] <;>
    norm_num [toNatOne, toNatTwo, toNatThree] <;>
    nlinarith [mul_nonneg ha h15, mul_nonneg hb h15, mul_nonneg hc h15, mul_nonneg hd h15]

lemma updV1 : updateFFT
    { historyPosition := 0, fftSubbandsSize := 4, energyHistorySize := 2,
      fftSubbands := [0, 0, 0, 0], fftAverageEnergy := [0, 0, 0, 0],
      fftVariance := [0, 0, 0, 0], fftBeatValues := [0, 0, 0, 0],
      energyHistory := [[0, 0], [0, 0], [0, 0], [0, 0]] } mSpec8 = stV1 := by
  simp only [updateFFT, stV1, mSpec8, List.length_cons, List.length_nil]
  norm_num [rangeFour, toNatOne, toNatTwo, toNatFour, tdivEightFour, tmodOneTwo,
    sum_range_two_q, BeatState.mk.injEq, qc2]

lemma updV2 : updateFFT stV1 mSpec8 = stV2 := by
  simp only [updateFFT, stV1, stV2, mSpec8, List.length_cons, List.length_nil]
  norm_num [rangeFour, toNatOne, toNatTwo, toNatFour, tdivEightFour, tmodTwoTwo,
    sum_range_two_q, BeatState.mk.injEq, qc2]

lemma updV3 : updateFFT stV2 mSpec8 = stV 1 112 := by
  simp only [updateFFT, stV2, stV, mSpec8, List.length_cons, List.length_nil]
  norm_num [rangeFour, toNatOne, toNatTwo, toNatFour, tdivEightFour, tmodOneTwo,
    sum_range_two_q, BeatState.mk.injEq, qc2]

lemma stepV1 (v : ℚ) : updateFFT (stV 1 v) mSpec8 = stV 0 ((v + 128) / 2) := by
  simp only [updateFFT, stV, mSpec8, List.length_cons, List.length_nil]
  norm_num [rangeFour, toNatOne, toNatTwo, toNatFour, tdivEightFour, tmodTwoTwo,
    sum_range_two_q, BeatState.mk.injEq, qc2]
  ring_nf

lemma stepV0 (v : ℚ) : updateFFT (stV 0 v) mSpec8 = stV 1 ((v + 128) / 2) := by
  simp only [updateFFT, stV, mSpec8, List.length_cons, List.length_nil]
  norm_num [rangeFour, toNatOne, toNatTwo, toNatFour, tdivEightFour, tmodOneTwo,
    sum_range_two_q, BeatState.mk.injEq, qc2]
  ring_nf

lemma iterV (n : ℕ) (hn : 3 ≤ n) :
    ∃ v : ℚ, 64 ≤ v ∧
      (iterUpdate (createBeatDetection 4 2) mSpec8 n = stV 0 v ∨
       iterUpdate (createBeatDetection 4 2) mSpec8 n = stV 1 v) := by
  induction n, hn using Nat.le_induction with
  | base =>
    refine ⟨112, by norm_num, Or.inr ?_⟩
    show iterUpdate (createBeatDetection 4 2) mSpec8 (0 + 1 + 1 + 1) = _
    simp only [iterUpdate, create42, updV1, updV2, updV3]
  | succ n hn ih =>
    obtain ⟨v, hv, hcase | hcase⟩ := ih
    · refine ⟨(v + 128) / 2, by linarith, Or.inr ?_⟩
      simp only [iterUpdate, hcase, stepV0]
    · refine ⟨(v + 128) / 2, by linarith, Or.inl ?_⟩
      simp only [iterUpdate, hcase, stepV1]

lemma isBeat_stV (p : ℤ) (v : ℚ) (hv : 64 ≤ v) : isBeat (stV p v) 0 = some true := by
  simp only [isBeat, stV, getIQ, qc2]
  norm_num
  linarith

end steadyStateLemmas

/-- Claim C1: the spec says `FFTVariance[s]` is the variance of the current
spectrum, recomputed fresh on every Update call; the code never resets
`FFTVariance[s]` before the `+=` accumulation (unlike `FFTSubbands[s]`), so
the stale value is carried into `(old + Σ deviations²) * (S/len)`.  With one
sub-band, history depth 1 and spectrum `[0, 2]` (whose fresh variance is 1),
the stored variance is 1 after the first call but `(1 + 2) * (1/2) = 3/2`
after the second identical call, not the 1 the claim requires. -/
theorem fftVariance_accumulates_across_updates :
    (updateFFT (createBeatDetection 1 1) [0, 2]).fftVariance.getD 0 0 = 1 ∧
    (updateFFT (updateFFT (createBeatDetection 1 1) [0, 2]) [0, 2]).fftVariance.getD 0 0
      = 3 / 2 ∧
    (3 / 2 : ℚ) ≠ 1 := by
  rw [create11, upd11a, upd11b]
  norm_num

/-- Claim C2 (counterexample): with 2 sub-bands and the length-5 spectrum
`[1, 1, 0, 0, 0]`, sub-band 0 covers bins 0 and 1 with sum 2; the code stores
`2 * (2/5) = 4/5`, while the arithmetic mean of the `floor(5/2) = 2` bins is
`2 / 2 = 1`. -/
theorem fftSubbands_mean_counterexample :
    (updateFFT (createBeatDetection 2 1) [1, 1, 0, 0, 0]).fftSubbands.getD 0 0 = 4 / 5 ∧
    (4 / 5 : ℚ) ≠ (1 + 1) / 2 := by
  rw [create21]
  constructor
  · simp only [updateFFT, List.length_cons, List.length_nil]
    norm_num [rangeTwo, toNatTwo, toNatOne, tdivFiveTwo, sum_range_two_q]
  · norm_num

/-- Claim C2 (amended): Update partitions the spectrum into S contiguous
sub-bands of `floor(len/S)` bins each (bins beyond an exact multiple are
dropped) and sets `FFTSubbands[s]` to the sum of those bins multiplied by
`S/len`; this equals the arithmetic mean (sum divided by `floor(len/S)`)
exactly when S divides len. -/
theorem updateFFT_subband_scaled_sum (st : BeatState) (m : List ℚ) (s : ℕ)
    (hs : s < st.fftSubbandsSize.toNat) (hlen : 0 < m.length) :
    (updateFFT st m).fftSubbands.getD s 0
      = (∑ j ∈ Finset.range (Int.tdiv (m.length : ℤ) st.fftSubbandsSize).toNat,
          m.getD (s * (Int.tdiv (m.length : ℤ) st.fftSubbandsSize).toNat + j) 0)
        * ((st.fftSubbandsSize : ℚ) / (m.length : ℚ)) ∧
    (st.fftSubbandsSize ∣ (m.length : ℤ) →
      (updateFFT st m).fftSubbands.getD s 0
        = (∑ j ∈ Finset.range (Int.tdiv (m.length : ℤ) st.fftSubbandsSize).toNat,
            m.getD (s * (Int.tdiv (m.length : ℤ) st.fftSubbandsSize).toNat + j) 0)
          / ((Int.tdiv (m.length : ℤ) st.fftSubbandsSize).toNat : ℚ)) := by
  have hS : 0 < st.fftSubbandsSize := by omega
  have hmain : (updateFFT st m).fftSubbands.getD s 0
      = (∑ j ∈ Finset.range (Int.tdiv (m.length : ℤ) st.fftSubbandsSize).toNat,
          m.getD (s * (Int.tdiv (m.length : ℤ) st.fftSubbandsSize).toNat + j) 0)
        * ((st.fftSubbandsSize : ℚ) / (m.length : ℚ)) := by
    simp only [updateFFT]
    exact getD_map_range _ _ _ hs
  refine ⟨hmain, fun hdvd => ?_⟩
  rw [hmain]
  have hlen0 : (0 : ℤ) ≤ (m.length : ℤ) := by positivity
  have htdiv : Int.tdiv (m.length : ℤ) st.fftSubbandsSize
      = (m.length : ℤ) / st.fftSubbandsSize := Int.tdiv_eq_ediv hlen0 (le_of_lt hS)
  set k : ℤ := (m.length : ℤ) / st.fftSubbandsSize with hk
  have hmul : st.fftSubbandsSize * k = (m.length : ℤ) := Int.mul_ediv_cancel' hdvd
  have hk0 : 0 < k := by
    rcases lt_or_le 0 k with h | h
    · exact h
    · exfalso; nlinarith [hmul, hlen, hS]
  have hcast : ((Int.tdiv (m.length : ℤ) st.fftSubbandsSize).toNat : ℚ) = (k : ℚ) := by
    rw [htdiv]
    exact_mod_cast Int.toNat_of_nonneg hk0.le
  rw [hcast]
  have hSq : ((st.fftSubbandsSize : ℤ) : ℚ) ≠ 0 := by norm_cast; omega
  have hkq : ((k : ℤ) : ℚ) ≠ 0 := by norm_cast; omega
  have hlenq : ((m.length : ℕ) : ℚ) = ((st.fftSubbandsSize : ℤ) : ℚ) * ((k : ℤ) : ℚ) := by
    rw [← Int.cast_mul, hmul]
    norm_cast
  rw [hlenq]
  field_simp
  ring

/-- Claim C2 (witness): the amended statement evaluated on 2 sub-bands with
the length-4 spectrum `[1, 2, 3, 4]` at sub-band 1. -/
theorem updateFFT_subband_scaled_sum_witness :
    (updateFFT (createBeatDetection 2 1) [1, 2, 3, 4]).fftSubbands.getD 1 0
      = (∑ j ∈ Finset.range
            (Int.tdiv ((([1, 2, 3, 4] : List ℚ).length : ℕ) : ℤ)
              (createBeatDetection 2 1).fftSubbandsSize).toNat,
          ([1, 2, 3, 4] : List ℚ).getD
            (1 * (Int.tdiv ((([1, 2, 3, 4] : List ℚ).length : ℕ) : ℤ)
                (createBeatDetection 2 1).fftSubbandsSize).toNat + j) 0)
        * (((createBeatDetection 2 1).fftSubbandsSize : ℚ)
            / ((([1, 2, 3, 4] : List ℚ).length : ℕ) : ℚ)) ∧
    ((createBeatDetection 2 1).fftSubbandsSize ∣ ((([1, 2, 3, 4] : List ℚ).length : ℕ) : ℤ) →
      (updateFFT (createBeatDetection 2 1) [1, 2, 3, 4]).fftSubbands.getD 1 0
        = (∑ j ∈ Finset.range
              (Int.tdiv ((([1, 2, 3, 4] : List ℚ).length : ℕ) : ℤ)
                (createBeatDetection 2 1).fftSubbandsSize).toNat,
            ([1, 2, 3, 4] : List ℚ).getD
              (1 * (Int.tdiv ((([1, 2, 3, 4] : List ℚ).length : ℕ) : ℤ)
                  (createBeatDetection 2 1).fftSubbandsSize).toNat + j) 0)
          / ((Int.tdiv ((([1, 2, 3, 4] : List ℚ).length : ℕ) : ℤ)
              (createBeatDetection 2 1).fftSubbandsSize).toNat : ℚ)) :=
  updateFFT_subband_scaled_sum (createBeatDetection 2 1) [1, 2, 3, 4] 1
    (by decide) (by decide)

/-- Claim C3 (counterexample): `CreateBeatDetection` writes the requested
history depth into the object before any validation, so `Create(4, 0)` leaves
the stored history size at 0, violating the invariant `H > 0`. -/
theorem create_invalid_history_counterexample :
    (createBeatDetection 4 0).energyHistorySize = 0 ∧
    ¬ 0 < (createBeatDetection 4 0).energyHistorySize := by decide

/-- Claim C3 (amended): `UpdateFFTSubbandsSize` and `UpdateEnergyHistorySize`
reject non-positive requests keeping the prior stored value, so together with
`UpdateFFT` they preserve `S > 0` and `H > 0`; `CreateBeatDetection`
establishes the invariant only when both of its arguments are positive,
because it stores the history depth unvalidated (and a fresh object starts
with both sizes at 0, so there is no positive prior value to keep). -/
theorem sizes_positive_amended (st : BeatState) (m : List ℚ) (i k n h : ℤ)
    (hS : 0 < st.fftSubbandsSize) (hH : 0 < st.energyHistorySize)
    (hn : 0 < n) (hh : 0 < h) :
    (0 < (updateFFTSubbandsSize st i).fftSubbandsSize ∧
     0 < (updateFFTSubbandsSize st i).energyHistorySize) ∧
    (0 < (updateEnergyHistorySize st k).fftSubbandsSize ∧
     0 < (updateEnergyHistorySize st k).energyHistorySize) ∧
    ((updateFFT st m).fftSubbandsSize = st.fftSubbandsSize ∧
     (updateFFT st m).energyHistorySize = st.energyHistorySize) ∧
    (createBeatDetection n h).fftSubbandsSize = n ∧
    (createBeatDetection n h).energyHistorySize = h := by
  refine ⟨?_, ?_, ⟨rfl, rfl⟩, ?_⟩
  · simp only [updateFFTSubbandsSize, updateEnergyHistorySize]
    split_ifs <;> simp_all
  · simp only [updateEnergyHistorySize]
    split_ifs <;> simp_all
  · simp only [createBeatDetection, updateFFTSubbandsSize, updateEnergyHistorySize,
      initialBeatState]
    split_ifs <;> simp_all <;> omega

/-- Claim C3 (witness): the amended statement evaluated on a well-formed
2-sub-band state, an invalid sub-band resize request, an invalid history
resize request, and a valid creation. -/
theorem sizes_positive_amended_witness :
    (0 < (updateFFTSubbandsSize stWitness (-1)).fftSubbandsSize ∧
     0 < (updateFFTSubbandsSize stWitness (-1)).energyHistorySize) ∧
    (0 < (updateEnergyHistorySize stWitness 0).fftSubbandsSize ∧
     0 < (updateEnergyHistorySize stWitness 0).energyHistorySize) ∧
    ((updateFFT stWitness [1, 2]).fftSubbandsSize = stWitness.fftSubbandsSize ∧
     (updateFFT stWitness [1, 2]).energyHistorySize = stWitness.energyHistorySize) ∧
    (createBeatDetection 4 2).fftSubbandsSize = 4 ∧
    (createBeatDetection 4 2).energyHistorySize = 2 :=
  sizes_positive_amended stWitness [1, 2] (-1) 0 4 2
    (by decide) (by decide) (by decide) (by decide)

/-- Claim C4 (counterexample): after one update of a 1-sub-band, depth-2
detector with spectrum `[1]` (which writes energy 1 at cursor 0 and advances
the cursor to 1), the successful history resize `UpdateEnergyHistorySize(2)`
leaves the written history entry at 1 and the cursor at 1 — it neither zeroes
the history buffers nor resets the cursor. -/
theorem resize_keeps_history_counterexample :
    (updateEnergyHistorySize (updateFFT (createBeatDetection 1 2) [1]) 2).historyPosition
      = 1 ∧
    ((updateEnergyHistorySize (updateFFT (createBeatDetection 1 2) [1]) 2).energyHistory.getD
        0 []).getD 0 0 = 1 := by
  rw [create12, upd12]
  constructor
  · simp [updateEnergyHistorySize]
  · simp [updateEnergyHistorySize, setNumQ, toNatTwo]

/-- Claim C4 (amended): a successful resize of either dimension leaves the
shared cursor unchanged, and a successful history resize gives every retained
row length equal to the new depth while preserving the retained entries (only
entries beyond the old length are zero-initialized); the all-zero history
with cursor 0 holds at creation with positive arguments, not after resizes. -/
theorem resize_effect_amended (st : BeatState) (k : ℤ) (hk : 0 < k) (s j : ℕ)
    (hj : j < k.toNat) (i n h : ℤ) (hn : 0 < n) (hh : 0 < h) :
    (updateEnergyHistorySize st k).historyPosition = st.historyPosition ∧
    (updateFFTSubbandsSize st i).historyPosition = st.historyPosition ∧
    (s < st.energyHistory.length →
      ((updateEnergyHistorySize st k).energyHistory.getD s []).length = k.toNat ∧
      ((updateEnergyHistorySize st k).energyHistory.getD s []).getD j 0
        = (st.energyHistory.getD s []).getD j 0) ∧
    (createBeatDetection n h).historyPosition = 0 ∧
    ∀ row ∈ (createBeatDetection n h).energyHistory, row = List.replicate h.toNat 0 := by
  refine ⟨?_, ?_, ?_, ?_, ?_⟩
  · simp only [updateEnergyHistorySize]
    split_ifs <;> rfl
  · simp only [updateFFTSubbandsSize, updateEnergyHistorySize]
    split_ifs <;> rfl
  · intro hs
    have hrow : (updateEnergyHistorySize st k).energyHistory.getD s []
        = setNumQ (st.energyHistory.getD s []) k.toNat := by
      simp only [updateEnergyHistorySize]
      rw [if_neg (by omega)]
      rw [List.getD_eq_getElem?_getD, List.getD_eq_getElem?_getD, List.getElem?_map]
      rw [List.getElem?_eq_getElem hs]
      simp [List.getD_eq_getElem?_getD, List.getElem?_eq_getElem hs]
    rw [hrow]
    exact ⟨setNumQ_length _ _, setNumQ_getD _ _ _ hj⟩
  · simp only [createBeatDetection, updateFFTSubbandsSize, updateEnergyHistorySize,
      initialBeatState]
    split_ifs <;> rfl
  · simp only [createBeatDetection, updateFFTSubbandsSize, updateEnergyHistorySize,
      initialBeatState, setNumRows, setNumQ]
    rw [if_neg (by omega), if_neg (by omega)]
    intro row hrow
    simp only [List.take_nil, List.nil_append, List.length_nil, Nat.sub_zero,
      List.map_replicate] at hrow
    have hr := List.eq_of_mem_replicate hrow
    simpa using hr

/-- Claim C4 (witness): the amended statement evaluated on a well-formed
2-sub-band state with a history resize to depth 2 and a creation with 2
sub-bands and depth 3. -/
theorem resize_effect_amended_witness :
    (updateEnergyHistorySize stWitness 2).historyPosition = stWitness.historyPosition ∧
    (updateFFTSubbandsSize stWitness 3).historyPosition = stWitness.historyPosition ∧
    (0 < stWitness.energyHistory.length →
      ((updateEnergyHistorySize stWitness 2).energyHistory.getD 0 []).length
        = (2 : ℤ).toNat ∧
      ((updateEnergyHistorySize stWitness 2).energyHistory.getD 0 []).getD 1 0
        = (stWitness.energyHistory.getD 0 []).getD 1 0) ∧
    (createBeatDetection 2 3).historyPosition = 0 ∧
    ∀ row ∈ (createBeatDetection 2 3).energyHistory, row = List.replicate (3 : ℤ).toNat 0 :=
  resize_effect_amended stWitness 2 (by decide) 0 1 (by decide) 3 2 3
    (by decide) (by decide)

/-- Claim C5: `GetAudioFrameFromSoundWaveByFramesCustom` computes the source
offset in interleaved samples (`StartFrame * NumChannels`) but the copied
slice size as the bare frame difference (`EndFrame - StartFrame`), omitting
the channel factor.  With 2 channels, 4 total frames (8 interleaved samples)
and the full valid range `[0, 4)`, the returned slice holds 4 samples instead
of the `(4 - 0) * 2 = 8` the claim requires. -/
theorem getAudioFrame_slice_length_bug :
    getAudioFrameByFramesCustom
      { pcmData := [1, 2, 3, 4, 5, 6, 7, 8], pcmNumOfFrames := 4, numChannels := 2 }
      0 4 = some [1, 2, 3, 4] ∧
    (([1, 2, 3, 4] : List ℚ).length : ℤ) ≠ (4 - 0) * 2 := by
  constructor
  · decide
  · decide

/-- Claim C6 (counterexample): with S = 4 sub-bands and history depth H = 2,
feeding the length-8 spectrum `[0,16,0,0,0,0,0,0]` repeatedly does NOT
eventually make every `IsBeat` false: sub-band 0 has positive in-band spread,
its variance follows the recurrence `v(n+1) = (v(n) + 128) / 2` (64, 96, 112,
… converging to 128, staying at 64 or above), the beat coefficient stays
below 1, and from the third update on `IsBeat(0)` stays true forever. -/
theorem steady_state_no_beat_counterexample :
    ¬ ∃ N : ℕ, ∀ n : ℕ, N ≤ n → ∀ s : ℤ, 0 ≤ s → s < 4 →
      isBeat (iterUpdate (createBeatDetection 4 2) mSpec8 n) s = some false := by
  rintro ⟨N, hN⟩
  have h := hN (N + 3) (by omega) 0 le_rfl (by norm_num)
  obtain ⟨v, hv, hcase | hcase⟩ := iterV (N + 3) (by omega) <;>
    rw [hcase, isBeat_stV _ v hv] at h <;>
    exact absurd (Option.some.injEq true false ▸ h) (by simp)

/-- Claim C6 (amended): with S = 4 and H = 2, for every spectrum whose four
sub-bands hold one bin each (length-4 spectrum) with non-negative magnitudes
— so every sub-band variance is zero — feeding the same spectrum repeatedly
yields `IsBeat(s) = false` for every sub-band from the third update on.  (For
spectra with positive in-band spread the property fails, because the stale
variance residue carried by the update `(old + Σ) * (S/len)` keeps the
variance high enough to hold the beat coefficient below 1.) -/
theorem steady_state_no_beat_amended (a b c d : ℚ)
    (ha : 0 ≤ a) (hb : 0 ≤ b) (hc : 0 ≤ c) (hd : 0 ≤ d)
    (n : ℕ) (hn : 3 ≤ n) (s : ℤ) (h0 : 0 ≤ s) (h4 : s < 4) :
    isBeat (iterUpdate (createBeatDetection 4 2) [a, b, c, d] n) s = some false := by
  obtain ⟨k, hk⟩ : ∃ k, n = 3 + 2 * k ∨ n = 4 + 2 * k := ⟨(n - 3) / 2, by omega⟩
  rcases hk with hk | hk <;> rw [hk]
  · rw [(iterSteady a b c d k).1]
    exact isBeat_stSteady 1 a b c d ha hb hc hd s h0 h4
  · rw [(iterSteady a b c d k).2]
    exact isBeat_stSteady 0 a b c d ha hb hc hd s h0 h4

/-- Claim C6 (witness): the amended statement evaluated on the spectrum
`[1, 2, 3, 0]` after 3 updates at sub-band 2. -/
theorem steady_state_no_beat_amended_witness :
    isBeat (iterUpdate (createBeatDetection 4 2) [1, 2, 3, 0] 3) 2 = some false :=
  steady_state_no_beat_amended 1 2 3 0 (by norm_num) (by norm_num) (by norm_num)
    (by norm_num) 3 (by norm_num) 2 (by norm_num) (by norm_num)

/-- Claim C7 (counterexample): on an empty frame the time-domain features do
not fail with any error — they return ordinary values: `GetPeakEnergy`
returns its seed sentinel -10000 and `GetZeroCrossingRate` returns 0. -/
theorem empty_frame_returns_values_counterexample :
    getPeakEnergy ([] : List ℚ) = -10000 ∧ getZeroCrossingRate ([] : List ℚ) = 0 := by
  constructor
  · simp [getPeakEnergy]
  · simp [getZeroCrossingRate]

/-- Claim C7 (amended): none of the three time-domain features signals an
error on an empty frame: `GetPeakEnergy` returns the sentinel -10000,
`GetZeroCrossingRate` returns 0, and `GetRootMeanSquare` divides by the zero
frame length (NaN in float arithmetic; 0 in this exact embedding, where
division by zero yields 0). -/
theorem empty_frame_amended :
    getRootMeanSquare ([] : List ℚ) = 0 ∧ getPeakEnergy ([] : List ℚ) = -10000 ∧
    getZeroCrossingRate ([] : List ℚ) = 0 := by
  refine ⟨?_, by simp [getPeakEnergy], by simp [getZeroCrossingRate]⟩
  simp [getRootMeanSquare, meanSquare]

/-- Claim C8: on a non-empty frame all of whose samples equal a constant c,
`GetRootMeanSquare` returns `|c|`, `GetPeakEnergy` returns `|c|`, and
`GetZeroCrossingRate` returns 0 (the sign test `x > 0` never differs between
consecutive equal samples). -/
theorem constant_frame_features (frame : List ℚ) (c : ℚ) (hne : frame ≠ [])
    (hc : ∀ x ∈ frame, x = c) :
    getRootMeanSquare frame = ((|c| : ℚ) : ℝ) ∧ getPeakEnergy frame = |c| ∧
    getZeroCrossingRate frame = 0 := by
  have hlen : 0 < frame.length := List.length_pos.mpr hne
  have hrepl : frame = List.replicate frame.length c := List.eq_replicate_of_mem hc
  refine ⟨?_, ?_, ?_⟩
  · have hms : meanSquare frame = c ^ 2 := by
      rw [meanSquare, hrepl, List.map_replicate, List.sum_replicate, List.length_replicate,
        nsmul_eq_mul]
      have h0 : ((frame.length : ℕ) : ℚ) ≠ 0 := by positivity
      field_simp
    rw [getRootMeanSquare, hms]
    push_cast
    exact Real.sqrt_sq_eq_abs _
  · obtain ⟨y, ys, rfl⟩ := List.exists_cons_of_ne_nil hne
    have hy : y = c := hc y (by simp)
    subst hy
    have hstep : ((-10000 : ℚ) < |y|) := by
      have := abs_nonneg y
      linarith
    rw [getPeakEnergy, List.foldl_cons, if_pos hstep]
    exact peak_foldl_const y ys (fun x hx => hc x (by simp [hx]))
  · rw [getZeroCrossingRate]
    have hfil : (frame.zip frame.tail).filter
        (fun p => decide (0 < p.2) != decide (0 < p.1)) = [] := by
      rw [List.filter_eq_nil_iff]
      rintro ⟨u, v⟩ hm
      have hu : u ∈ frame := (List.of_mem_zip hm).1
      have hv : v ∈ frame := List.mem_of_mem_tail (List.of_mem_zip hm).2
      rw [hc u hu, hc v hv]
      simp
    rw [hfil]
    simp

/-- Claim C8 (witness): the constant-frame statement evaluated on the frame
`[2, 2]`. -/
theorem constant_frame_features_witness :
    ([2, 2] : List ℚ) ≠ [] ∧
    (getRootMeanSquare [2, 2] = ((|(2 : ℚ)| : ℚ) : ℝ) ∧
      getPeakEnergy [2, 2] = |(2 : ℚ)| ∧ getZeroCrossingRate [2, 2] = 0) :=
  ⟨by decide, constant_frame_features [2, 2] 2 (by decide) (by decide)⟩

/-- Claim C9: `IsBeatRange(low, high, threshold)` returns false when `low` or
`high` lies outside `[0, S)` or `high ≤ low`; on a valid range it returns
true exactly when the number of sub-bands in the inclusive range
`[low, high]` with `IsBeat` true is strictly greater than the threshold;
`IsSnare()` equals `IsBeatRange(1, S/3, (S/3 - 1)/3)` and `IsHiHat()` equals
`IsBeatRange(S/2, S - 1, (S - 1 - S/2)/3)` with C++ (truncating) integer
division. -/
theorem isBeatRange_spec (st : BeatState) (low high threshold : ℤ) :
    (¬(0 ≤ low ∧ low < st.fftSubbandsSize ∧ 0 ≤ high ∧ high < st.fftSubbandsSize ∧
        low < high) →
      isBeatRange st low high threshold = false) ∧
    ((0 ≤ low ∧ low < st.fftSubbandsSize ∧ 0 ≤ high ∧ high < st.fftSubbandsSize ∧
        low < high) →
      (isBeatRange st low high threshold = true ↔
        threshold <
          (((Finset.Icc low high).filter (fun b => isBeat st b = some true)).card : ℤ))) ∧
    isSnare st = isBeatRange st 1 (Int.tdiv st.fftSubbandsSize 3)
      (Int.tdiv (Int.tdiv st.fftSubbandsSize 3 - 1) 3) ∧
    isHiHat st = isBeatRange st (Int.tdiv st.fftSubbandsSize 2) (st.fftSubbandsSize - 1)
      (Int.tdiv (st.fftSubbandsSize - 1 - Int.tdiv st.fftSubbandsSize 2) 3) := by
  refine ⟨?_, ?_, rfl, rfl⟩
  · intro hbad
    by_cases c1 : 0 ≤ low ∧ low < st.fftSubbandsSize
    · by_cases c2 : 0 ≤ high ∧ high < st.fftSubbandsSize
      · have c3 : ¬ low < high := by tauto
        simp [isBeatRange, c1, c2, c3]
      · simp [isBeatRange, c1, c2]
    · simp [isBeatRange, c1]
  · rintro ⟨hl0, hlS, hh0, hhS, hlh⟩
    rw [isBeatRange, if_neg (by simp [hl0, hlS]), if_neg (by simp [hh0, hhS]),
      if_neg (by simp [hlh])]
    rw [decide_eq_true_eq]
    have hcnt := count_filter_range (fun b => isBeat st b = some true) low
      (high + 1 - low).toNat
    have hatop : low + ((high + 1 - low).toNat : ℤ) - 1 = high := by omega
    rw [hatop] at hcnt
    rw [hcnt]

/-- Claim C9 (witness): the range statement evaluated on a well-formed
2-sub-band state where sub-band 0 beats and sub-band 1 does not: the invalid
call `IsBeatRange(2, 1, 0)` returns false, and the valid call
`IsBeatRange(0, 1, 0)` reduces to the threshold comparison on the beat
count over `[0, 1]`. -/
theorem isBeatRange_spec_witness :
    isBeatRange stWitness 2 1 0 = false ∧
    (isBeatRange stWitness 0 1 0 = true ↔
      (0 : ℤ) <
        (((Finset.Icc (0 : ℤ) 1).filter (fun b => isBeat stWitness b = some true)).card : ℤ)) :=
  ⟨(isBeatRange_spec stWitness 2 1 0).1 (by decide),
   (isBeatRange_spec stWitness 0 1 0).2.1 (by decide)⟩

/-- Claim C10: `IsBeat` guards only against indices at or above the sub-band
count (returning false there without touching the arrays); for smaller
indices it reads `FFTSubbands`, `FFTAverageEnergy` and `FFTBeatValues` at the
index, and on a well-formed state those reads succeed (yield a value) exactly
when `0 ≤ b < S` — every negative index is an out-of-bounds access. -/
theorem isBeat_access_bounds (st : BeatState) (hWF : st.WF) (b : ℤ) :
    (st.fftSubbandsSize ≤ b → isBeat st b = some false) ∧
    (b < st.fftSubbandsSize →
      ((isBeat st b).isSome ↔ (0 ≤ b ∧ b < st.fftSubbandsSize))) := by
  obtain ⟨hS, h1, h2, h3, h4⟩ := hWF
  constructor
  · intro hb
    simp [isBeat, hb]
  · intro hb
    rw [isBeat, if_neg (by omega : ¬ st.fftSubbandsSize ≤ b)]
    by_cases h0 : 0 ≤ b
    · have e1 : 0 ≤ b ∧ b < (st.fftSubbands.length : ℤ) := by
        refine ⟨h0, ?_⟩
        rw [h1]; omega
      have e2 : 0 ≤ b ∧ b < (st.fftAverageEnergy.length : ℤ) := by
        refine ⟨h0, ?_⟩
        rw [h2]; omega
      have e3 : 0 ≤ b ∧ b < (st.fftBeatValues.length : ℤ) := by
        refine ⟨h0, ?_⟩
        rw [h4]; omega
      rw [getIQ, if_pos e1, getIQ, if_pos e2, getIQ, if_pos e3]
      simp [h0, hb]
    · rw [getIQ, if_neg (by omega)]
      simp [h0]

/-- Claim C10 (witness): on the well-formed 2-sub-band state, the reads of
`IsBeat` at the negative index -1 fail (the guard does not catch it), so the
result carries no value. -/
theorem isBeat_access_bounds_witness :
    (isBeat stWitness (-1)).isSome ↔ ((0 : ℤ) ≤ -1 ∧ (-1 : ℤ) < stWitness.fftSubbandsSize) :=
  (isBeat_access_bounds stWitness (by decide) (-1)).2 (by decide)
